import Mathlib

/-!
Verification of the formula-compiler components of the
`is-everything-really-a-language` repository against its specification.

The Python sources are shallowly embedded: Python runtime values that flow
through the generated calculation functions and the OCL interpreter are
modelled by the inductive type `Value` (`None` is `Value.null`; Python's
`bool`, `int`, `str` keep their meaning; the result of true division is
carried as an exact rational, since no verified property inspects a
quotient's rounding).  Fallible Python code (code that can raise) returns
`Except String Value`, the error string naming the exception class.
-/

/-- Python runtime value, as used by the generated calculation functions and
the OCL interpreter: `None`, `bool`, `int`, `float` (division results,
modelled exactly as rationals) and `str`. -/
inductive Value where
  | null
  | bool (b : Bool)
  | int (n : Int)
  | float (q : ℚ)
  | str (s : String)
deriving DecidableEq, Repr

/-- Python truthiness `bool(v)`: `None`, `False`, `0` and `""` are falsy. -/
def pyBool : Value → Bool
  | .null => false
  | .bool b => b
  | .int n => n != 0
  | .float q => q != 0
  | .str s => s != ""

/-- Python `str(v)` on our value domain.  Integer formatting agrees with
Python; the textual form of a `float` is abstracted (no verified property
stringifies a division result). -/
def pyStr : Value → String
  | .null => "None"
  | .bool true => "True"
  | .bool false => "False"
  | .int n => toString n
  | .float q => toString q
  | .str s => s

/-- Numeric reading of a value, as Python arithmetic sees it: `bool` is an
`int` subclass (`True` is `1`, `False` is `0`); strings and `None` are not
numbers. -/
def pyNum : Value → Option ℚ
  | .bool b => some (if b then 1 else 0)
  | .int n => some (n : ℚ)
  | .float q => some q
  | _ => none

/-- Integer reading of a value: Python `bool` and `int` only. -/
def pyIntOf : Value → Option Int
  | .bool b => some (if b then 1 else 0)
  | .int n => some n
  | _ => none

/-- Python `==` on our value domain: numbers (including `bool`, an `int`
subclass, so `True == 1`) compare numerically, strings compare as strings,
`None` equals only `None`, and values of unrelated types are unequal. -/
def pyEq (a b : Value) : Bool :=
  match pyNum a, pyNum b with
  | some x, some y => x == y
  | _, _ =>
    match a, b with
    | .str s, .str t => s == t
    | .null, .null => true
    | _, _ => false

/-- Python identity test `v is True` (only the `True` object itself passes;
`1 is True` is false). -/
def isTrueV (v : Value) : Bool := v == Value.bool true

/-!
Generated calculation library, translated from
`src/execution-substratrates/python/erb_calc.py`.  Each function is the
generated Python function's body over `Value`.
-/

/-- Formula `={{HasSyntax}} = TRUE()`: generated body `(has_syntax == True)`. -/
def calc_has_grammar ( has_syntax : Value) : Bool :=
  pyEq has_syntax (Value.bool true)

/-- Formula `="Is " & {{Name}} & " a language?"`: generated body
`('Is ' + str(name or "") + ' a language?')` (`name or ""` yields `""` for a
falsy `name`, in particular for `None`). -/
def calc_question (name : Value) : String :=
  "Is " ++ pyStr (if pyBool name then name else Value.str "") ++ " a language?"

/-- Python `>` restricted to the operand kinds the interpreter can feed it:
numbers (including `bool`) compare numerically, strings lexicographically,
anything else (in particular `None`) raises `TypeError`. -/
def pyGt (a b : Value) : Except String Bool :=
  match pyNum a, pyNum b with
  | some x, some y => .ok (decide (y < x))
  | _, _ =>
    match a, b with
    | .str s, .str t => .ok (decide (t < s))
    | _, _ => .error "TypeError"

/-- Formula `={{DistanceFromConcept}} > 1`: generated body
`(distance_from_concept > 1)`, which raises on a `None` operand. -/
def calc_is_description_of (distance_from_concept : Value) : Except String Bool :=
  pyGt distance_from_concept (Value.int 1)

/-- Formula `=AND({{IsOpenWorld}}, {{IsClosedWorld}})`: generated body
`((is_open_world is True) and (is_closed_world is True))`. -/
def calc_is_open_closed_world_conflicted (is_open_world is_closed_world : Value) : Bool :=
  isTrueV is_open_world && isTrueV is_closed_world

/-- Formula `=IF({{DistanceFromConcept}} = 1, "IsMirrorOf", "IsDescriptionOf")`:
generated body `('IsMirrorOf' if (distance_from_concept == 1) else 'IsDescriptionOf')`. -/
def calc_relationship_to_concept (distance_from_concept : Value) : String :=
  if pyEq distance_from_concept (Value.int 1) then "IsMirrorOf" else "IsDescriptionOf"

/-- The generated code's negation idiom `(x is not True)`: `NOT` compiled by
the Python substrate, as it appears in `calc_predicted_answer`. -/
def erb_not (v : Value) : Bool := !isTrueV v

/-- Formula `=AND({{HasSyntax}}, ..., NOT({{CanBeHeld}}), NOT({{HasIdentity}}))`:
generated body chains `(arg is True) and ...` for the six positive arguments
and `(arg is not True)` for the two negated ones. -/
def calc_predicted_answer ( has_syntax requires_parsing is_description_of
    has_linear_decoding_pressure resolves_to_an_ast is_stable_ontology_reference
    can_be_held has_identity : Value) : Bool :=
  isTrueV has_syntax && isTrueV requires_parsing && isTrueV is_description_of &&
  isTrueV has_linear_decoding_pressure && isTrueV resolves_to_an_ast &&
  isTrueV is_stable_ontology_reference && erb_not can_be_held && erb_not has_identity

/-- The generated pattern `str(E if E is not None else "")`: `None` contributes
the empty string, anything else its `str` form. -/
def coalesceStr (v : Value) : String :=
  pyStr (if v == Value.null then Value.str "" else v)

/-- Translation of `calc_prediction_fail` from `erb_calc.py`.  The generated
Python repeats the message subexpression textually inside
`X if cond else None` and again in the `is not None` guard; both copies are
pure, so the translation binds each once. -/
def calc_prediction_fail (predicted_answer is_language name
    is_open_closed_world_conflicted : Value) : String :=
  let msg : String :=
    pyStr (if pyBool name then name else Value.str "") ++ " " ++
    coalesceStr (Value.str (if pyBool predicted_answer then "Is" else "Isn't")) ++
    " a Family Feud Language, but " ++
    coalesceStr (Value.str (if pyBool is_language then "Is" else "Is Not")) ++
    " marked as a 'Language Candidate.'"
  let first : Value := if !pyEq predicted_answer is_language then Value.str msg else Value.null
  let second : Value :=
    if pyBool is_open_closed_world_conflicted then
      Value.str " - Open World vs. Closed World Conflict." else Value.null
  coalesceStr first ++ coalesceStr second

deriving instance DecidableEq for Except

/-!
OCL interpreter, translated from
`src/execution-substratrates/uml/take-test.py` (`OCLNode` subclasses,
`OCLInterpreter.eval_node`, `apply_binary_op`, `apply_method`).
-/

/-- OCL abstract syntax, one constructor per `OCLNode` subclass. -/
inductive OCLNode where
  | literalBool (value : Bool)
  | literalInt (value : Int)
  | literalString (value : String)
  | selfAttr (attr : String)
  | unaryExpr (op : String) (operand : OCLNode)
  | binaryExpr (op : String) (left : OCLNode) (right : OCLNode)
  | ifExpr (cond : OCLNode) (thenBranch : OCLNode) (elseBranch : OCLNode)
  | methodCall (obj : OCLNode) (method : String) (args : List OCLNode)
deriving Repr

/-- Python string repetition `s * n` (empty for a non-positive count). -/
def strRepeat (s : String) (n : Int) : String :=
  String.join (List.replicate n.toNat s)

/-- Python `+` on two non-string values after the interpreter's `None`
substitution: numeric addition (`int` if both operands are `int`-like,
`float` otherwise), `TypeError` on anything else. -/
def pyAdd (a b : Value) : Except String Value :=
  match pyIntOf a, pyIntOf b with
  | some x, some y => .ok (Value.int (x + y))
  | _, _ =>
    match pyNum a, pyNum b with
    | some x, some y => .ok (Value.float (x + y))
    | _, _ => .error "TypeError"

/-- Python `-` under the same conventions as `pyAdd`. -/
def pySub (a b : Value) : Except String Value :=
  match pyIntOf a, pyIntOf b with
  | some x, some y => .ok (Value.int (x - y))
  | _, _ =>
    match pyNum a, pyNum b with
    | some x, some y => .ok (Value.float (x - y))
    | _, _ => .error "TypeError"

/-- Python `*`: numeric product, or string repetition when one operand is a
string and the other an `int`-like value; `TypeError` otherwise. -/
def pyMul (a b : Value) : Except String Value :=
  match pyIntOf a, pyIntOf b with
  | some x, some y => .ok (Value.int (x * y))
  | _, _ =>
    match pyNum a, pyNum b with
    | some x, some y => .ok (Value.float (x * y))
    | _, _ =>
      match a, b with
      | .str s, _ =>
        match pyIntOf b with
        | some n => .ok (Value.str (strRepeat s n))
        | none => .error "TypeError"
      | _, .str s =>
        match pyIntOf a with
        | some n => .ok (Value.str (strRepeat s n))
        | none => .error "TypeError"
      | _, _ => .error "TypeError"

/-- Python ordering comparison used for `<`, `<=`, `>`, `>=` once both
operands are known non-`None`: numbers compare numerically, strings
lexicographically, mixed kinds raise `TypeError`.  `strict` selects `<` vs
`<=`. -/
def pyLtLe (strict : Bool) (a b : Value) : Except String Bool :=
  match pyNum a, pyNum b with
  | some x, some y => .ok (if strict then decide (x < y) else decide (x ≤ y))
  | _, _ =>
    match a, b with
    | .str s, .str t => .ok (if strict then decide (s < t) else decide (s ≤ t))
    | _, _ => .error "TypeError"

/-- `OCLInterpreter.apply_binary_op`, branch for branch.  `+` with a string
operand coerces `None` to `""` and the other operand with `str`; the
arithmetic branches substitute `0` for `None` (`1` for a `None` or zero
divisor); a `None` operand of an ordering comparison yields `False`;
`and`/`or` coerce both operands with `bool`. -/
def apply_binary_op (op : String) (left right : Value) : Except String Value :=
  if op = "+" then
    match left, right with
    | .str _, _ | _, .str _ =>
      .ok (Value.str ((if left == Value.null then "" else pyStr left) ++
        (if right == Value.null then "" else pyStr right)))
    | _, _ =>
      pyAdd (if left == Value.null then Value.int 0 else left)
        (if right == Value.null then Value.int 0 else right)
  else if op = "-" then
    pySub (if left == Value.null then Value.int 0 else left)
      (if right == Value.null then Value.int 0 else right)
  else if op = "*" then
    pyMul (if left == Value.null then Value.int 0 else left)
      (if right == Value.null then Value.int 0 else right)
  else if op = "/" then
    let leftNum := if left == Value.null then Value.int 0 else left
    let rightNum := if right == Value.null || pyEq right (Value.int 0) then Value.int 1 else right
    match pyNum leftNum, pyNum rightNum with
    | some x, some y =>
      if y = 0 then .error "ZeroDivisionError" else .ok (Value.float (x / y))
    | _, _ => .error "TypeError"
  else if op = "=" then .ok (Value.bool (pyEq left right))
  else if op = "<>" then .ok (Value.bool (!pyEq left right))
  else if op = "<" then
    if left == Value.null || right == Value.null then .ok (Value.bool false)
    else (pyLtLe true left right).map Value.bool
  else if op = "<=" then
    if left == Value.null || right == Value.null then .ok (Value.bool false)
    else (pyLtLe false left right).map Value.bool
  else if op = ">" then
    if left == Value.null || right == Value.null then .ok (Value.bool false)
    else (pyLtLe true right left).map Value.bool
  else if op = ">=" then
    if left == Value.null || right == Value.null then .ok (Value.bool false)
    else (pyLtLe false right left).map Value.bool
  else if op = "and" then .ok (Value.bool (pyBool left && pyBool right))
  else if op = "or" then .ok (Value.bool (pyBool left || pyBool right))
  else .error "Unknown binary op"

/-- First index of `t` in `s`, Python `str.find`: `-1` when absent. -/
def strFind (s t : String) : Int :=
  match (List.range (s.length + 1)).find? (fun i => t.data.isPrefixOf (s.data.drop i)) with
  | some i => (i : Int)
  | none => -1

/-- Python string slice `s[a:b]` with step 1: negative indices count from the
end, out-of-range indices clamp. -/
def pySlice (s : String) (a b : Int) : String :=
  let n : Int := s.length
  let norm : Int → Nat := fun i => (if i < 0 then max (n + i) 0 else min i n).toNat
  String.mk ((s.data.take (norm b)).drop (norm a))

/-- `OCLInterpreter.apply_method` over already-evaluated argument values (the
source evaluates an argument only when the method inspects it; all argument
expressions are pure, so only the reported error can differ). -/
def apply_method (obj : Value) (method : String) (args : List Value) : Except String Value :=
  let methodLower := method.toLower
  if methodLower = "tolower" then
    .ok (Value.str (if obj == Value.null then "" else (pyStr obj).toLower))
  else if methodLower = "toupper" then
    .ok (Value.str (if obj == Value.null then "" else (pyStr obj).toUpper))
  else if methodLower = "indexof" then
    match args with
    | [] => .error "indexOf requires 1 argument"
    | needle :: _ =>
      if obj == Value.null then .ok (Value.int (-1))
      else .ok (Value.int (strFind (pyStr obj) (pyStr needle)))
  else if methodLower = "substring" then
    match args with
    | a :: b :: _ =>
      if obj == Value.null then .ok (Value.str "")
      else
        match pyIntOf a, pyIntOf b with
        | some x, some y => .ok (Value.str (pySlice (pyStr obj) x y))
        | _, _ => .error "TypeError"
    | _ => .error "substring requires 2 arguments"
  else if methodLower = "size" then
    if obj == Value.null then .ok (Value.int 0)
    else .ok (Value.int ((pyStr obj).length : Int))
  else .error "Unknown method"

mutual

/-- `OCLInterpreter.eval_node`.  `lookup` is the interpreter's `attr_lookup`
(the record with lower-cased keys; a missing attribute reads as `None`,
matching `dict.get`). -/
def eval_node (lookup : String → Value) : OCLNode → Except String Value
  | .literalBool b => .ok (Value.bool b)
  | .literalInt n => .ok (Value.int n)
  | .literalString s => .ok (Value.str s)
  | .selfAttr a => .ok (lookup a.toLower)
  | .unaryExpr op operand =>
    if op = "not" then
      match eval_node lookup operand with
      | .ok v => .ok (if v == Value.null then Value.null else Value.bool (!pyBool v))
      | .error e => .error e
    else .error "Unknown unary op"
  | .binaryExpr op l r =>
    match eval_node lookup l with
    | .ok lv =>
      match eval_node lookup r with
      | .ok rv => apply_binary_op op lv rv
      | .error e => .error e
    | .error e => .error e
  | .ifExpr c t e =>
    match eval_node lookup c with
    | .ok cv => if pyBool cv then eval_node lookup t else eval_node lookup e
    | .error er => .error er
  | .methodCall obj m args =>
    match eval_node lookup obj with
    | .ok ov =>
      match eval_node_list lookup args with
      | .ok avs => apply_method ov m avs
      | .error e => .error e
    | .error e => .error e

/-- Evaluation of a method call's argument list, left to right. -/
def eval_node_list (lookup : String → Value) : List OCLNode → Except String (List Value)
  | [] => .ok []
  | a :: as =>
    match eval_node lookup a with
    | .ok v =>
      match eval_node_list lookup as with
      | .ok vs => .ok (v :: vs)
      | .error e => .error e
    | .error e => .error e

end

/-!
Dependency leveling, translated from
`src/execution-substratrates/python/inject-into-python.py`
(`build_dag_levels`) and
`src/execution-substrates/explain-dag/inject-into-explain-dag.py`
(`build_calc_order`).

Both scripts first map each calculated field to its dependency set with
`parse_formula` / `get_field_dependencies` (from
`orchestration/formula_parser.py`, which is not part of the sources here);
a field is therefore modelled as its name together with that set, names
already in the canonical form both scripts compare (`build_dag_levels`
snake-cases names on both sides, `build_calc_order` uses them as-is).
The `while remaining:` loops are embedded with an explicit bound (`fuel`),
initialized to the number of fields; every productive pass removes at least
one field, so the bound is never exhausted.
-/

/-- A calculated field: its name and the field names its formula reads. -/
structure CalcField where
  name : String
  deps : List String
deriving DecidableEq, Repr

/-- The readiness test `deps <= assigned` of both resolver loops. -/
def field_ready (assigned : List String) (f : CalcField) : Bool :=
  f.deps.all (fun d => decide (d ∈ assigned))

/-- One `while remaining:` loop of `build_dag_levels`: collect the ready
fields into the next level; if none is ready while fields remain, put all
remaining fields (in their given order) into one final level and stop. -/
def build_dag_levels_go (fuel : Nat) (fields : List CalcField) (assigned : List String) :
    List (List CalcField) :=
  match fuel with
  | 0 => []
  | fuel + 1 =>
    if fields.isEmpty then []
    else
      let ready := fields.filter (field_ready assigned)
      if ready.isEmpty then [fields]
      else
        ready :: build_dag_levels_go fuel (fields.filter fun f => !field_ready assigned f)
          (assigned ++ ready.map (·.name))

/-- `build_dag_levels(calculated_fields, raw_field_names)`: `assigned` starts
as the raw field names. -/
def build_dag_levels (fields : List CalcField) (assigned : List String) :
    List (List CalcField) :=
  build_dag_levels_go fields.length fields assigned

/-- Whether the resolver finishes without taking the no-ready-field branch —
the observable "no dependency cycle" signal (the branch prints the
`Could not resolve dependencies` warning exactly when this is `false`). -/
def dag_levels_ok_go (fuel : Nat) (fields : List CalcField) (assigned : List String) : Bool :=
  match fuel with
  | 0 => true
  | fuel + 1 =>
    if fields.isEmpty then true
    else
      let ready := fields.filter (field_ready assigned)
      if ready.isEmpty then false
      else
        dag_levels_ok_go fuel (fields.filter fun f => !field_ready assigned f)
          (assigned ++ ready.map (·.name))

/-- The no-cycle signal for a full `build_dag_levels` run. -/
def dag_levels_ok (fields : List CalcField) (assigned : List String) : Bool :=
  dag_levels_ok_go fields.length fields assigned

/-- Lexicographic strict comparison of char lists, by code point — Python's
string `<` (computable down to `Nat` comparisons, unlike `String.ltb`). -/
def charListLt : List Char → List Char → Bool
  | [], [] => false
  | [], _ :: _ => true
  | _ :: _, [] => false
  | a :: as, b :: bs =>
    if a < b then true else if b < a then false else charListLt as bs

theorem charListLt_iff : ∀ as bs : List Char, charListLt as bs = true ↔ as < bs := by
  intro as
  induction as with
  | nil =>
    intro bs
    cases bs with
    | nil =>
      simp only [charListLt]
      constructor
      · intro h; cases h
      · intro h; cases h
    | cons b bs =>
      simp only [charListLt]
      constructor
      · intro _; exact List.Lex.nil
      · intro _; trivial
  | cons a as ih =>
    intro bs
    cases bs with
    | nil =>
      simp only [charListLt]
      constructor
      · intro h; cases h
      · intro h; cases h
    | cons b bs =>
      rcases lt_trichotomy a b with hab | heq | hba
      · simp only [charListLt, if_pos hab]
        constructor
        · intro _; exact List.Lex.rel hab
        · intro _; trivial
      · subst heq
        simp only [charListLt, if_neg (lt_irrefl a)]
        rw [ih bs]
        constructor
        · intro h; exact List.Lex.cons h
        · intro h
          cases h with
          | cons h => exact h
          | rel h => exact absurd h (lt_irrefl a)
      · simp only [charListLt, if_neg (lt_asymm hba), if_pos hba]
        constructor
        · intro h; cases h
        · intro h
          cases h with
          | cons h => exact absurd hba (lt_irrefl a)
          | rel h => exact absurd h (lt_asymm hba)

/-- Python string `<=`, as a computable comparison (`a <= b` iff `not (b < a)`). -/
def pyStrLe (a b : String) : Bool := !charListLt b.data a.data

theorem pyStrLe_iff (a b : String) : pyStrLe a b = true ↔ a ≤ b := by
  have key : charListLt b.data a.data = true ↔ b < a := by
    rw [charListLt_iff]
    exact Iff.symm String.lt_iff_toList_lt
  constructor
  · intro h
    have hnlt : ¬ b < a := by
      intro hc
      have := key.mpr hc
      simp [pyStrLe, this] at h
    exact not_lt.mp hnlt
  · intro hle
    have hfalse : charListLt b.data a.data = false := by
      cases hcl : charListLt b.data a.data with
      | true => exact absurd (key.mp hcl) (not_lt.mpr hle)
      | false => rfl
    simp [pyStrLe, hfalse]

/-- String order used to model Python's `sorted` on field names. -/
def strLe (a b : String) : Prop := pyStrLe a b = true

instance : DecidableRel strLe := fun a b => inferInstanceAs (Decidable (pyStrLe a b = true))

instance : IsTotal String strLe :=
  ⟨fun a b => by
    rcases le_total a b with h | h
    · exact Or.inl ((pyStrLe_iff a b).mpr h)
    · exact Or.inr ((pyStrLe_iff b a).mpr h)⟩

instance : IsTrans String strLe :=
  ⟨fun a b c h1 h2 =>
    (pyStrLe_iff a c).mpr (le_trans ((pyStrLe_iff a b).mp h1) ((pyStrLe_iff b c).mp h2))⟩

instance : IsAntisymm String strLe :=
  ⟨fun a b h1 h2 => le_antisymm ((pyStrLe_iff a b).mp h1) ((pyStrLe_iff b a).mp h2)⟩

/-- Python `sorted` on a list of names (a sort by `<=`; Python's sort is
stable, but every use here sorts lists with pairwise-distinct names). -/
def pySorted (names : List String) : List String :=
  List.insertionSort strLe names

/-- One loop pass of `build_calc_order` from the explain-dag injector: ready
field names are appended in sorted order; if no field is ready while some
remain, all remaining names are appended sorted and the loop stops. -/
def build_calc_order_go (fuel : Nat) (fields : List CalcField) (assigned : List String) :
    List String :=
  match fuel with
  | 0 => []
  | fuel + 1 =>
    if fields.isEmpty then []
    else
      let ready := fields.filter (field_ready assigned)
      if ready.isEmpty then pySorted (fields.map (·.name))
      else
        pySorted (ready.map (·.name)) ++
          build_calc_order_go fuel (fields.filter fun f => !field_ready assigned f)
            (assigned ++ ready.map (·.name))

/-- `build_calc_order(calculated_fields, raw_field_names)`, the returned
`calc_order` (the dependency-edge list the source returns alongside it is
not modelled; no verified property mentions it). -/
def build_calc_order (fields : List CalcField) (assigned : List String) : List String :=
  build_calc_order_go fields.length fields assigned

/-!
Graph exporter, translated from
`src/execution-substrates/explain-dag/inject-into-explain-dag.py`
(`ast_to_graph`, `compute_template_hash`).  The formula AST type is embedded
from the constructors and fields that script imports from
`orchestration/formula_parser` and destructures (`LiteralBool.value`,
`FieldRef.name`, `BinaryOp.op/left/right`, `UnaryOp.op/operand`,
`FuncCall.name/args`, `Concat.parts`).
-/

/-- Formula AST (`ASTNode` and its subclasses from the formula parser). -/
inductive ASTNode where
  | literalBool (value : Bool)
  | literalInt (value : Int)
  | literalString (value : String)
  | fieldRef (name : String)
  | unaryOp (op : String) (operand : ASTNode)
  | binaryOp (op : String) (left : ASTNode) (right : ASTNode)
  | concat (parts : List ASTNode)
  | funcCall (name : String) (args : List ASTNode)
deriving Repr

/-- Modelled from the spec: `to_snake_case` lives in `orchestration/shared.py`,
which is not among the sources; it converts a CamelCase field name to
snake_case (`HasSyntax` to `has_syntax`, `ResolvesToAnAST` to
`resolves_to_an_ast`), here as: an underscore before every uppercase letter
that follows a lowercase letter or digit, and everything lower-cased. -/
def toSnakeAux : Option Char → List Char → List Char
  | _, [] => []
  | prev, c :: cs =>
    let rest := toSnakeAux (some c) cs
    if c.isUpper then
      match prev with
      | some p => if p.isLower || p.isDigit then '_' :: c.toLower :: rest else c.toLower :: rest
      | none => c.toLower :: rest
    else c :: rest

/-- Snake-case form of a field name (see `toSnakeAux`). -/
def to_snake_case (s : String) : String := String.mk (toSnakeAux none s.data)

/-- A graph node's payload, one constructor per `"kind"` the exporter emits. -/
inductive NodeDesc where
  | const (value : Value) (type : String)
  | field_ref (field : String) (field_snake : String)
  | op (name : String) (args : List String)
  | fn (name : String) (args : List String)
  | result (field : String) (field_snake : String) (inputs : List String)
deriving DecidableEq, Repr

/-- The exporter's mutable visitor state: the node-id counter, the `nodes`
mapping in insertion order, and the `edges` list. -/
structure GState where
  counter : Nat
  nodes : List (String × NodeDesc)
  edges : List (String × String)
deriving DecidableEq, Repr

/-- `make_node_id`: the counter is incremented first, then used in the id. -/
def make_node_id (pre : String) (counter : Nat) : String :=
  "n_" ++ pre ++ "_" ++ toString (counter + 1)

mutual

/-- The exporter's `visit`: returns the visited subtree's node id and threads
the counter/nodes/edges state the Python closure mutates. -/
def visit : ASTNode → GState → String × GState
  | .literalBool b, st =>
    let id := make_node_id "const" st.counter
    (id, ⟨st.counter + 1, st.nodes ++ [(id, .const (Value.bool b) "boolean")], st.edges⟩)
  | .literalInt n, st =>
    let id := make_node_id "const" st.counter
    (id, ⟨st.counter + 1, st.nodes ++ [(id, .const (Value.int n) "integer")], st.edges⟩)
  | .literalString s, st =>
    let id := make_node_id "const" st.counter
    (id, ⟨st.counter + 1, st.nodes ++ [(id, .const (Value.str s) "string")], st.edges⟩)
  | .fieldRef n, st =>
    let id := make_node_id "ref" st.counter
    (id, ⟨st.counter + 1, st.nodes ++ [(id, .field_ref n (to_snake_case n))], st.edges⟩)
  | .unaryOp op operand, st =>
    let (oid, st1) := visit operand st
    let id := make_node_id "fn" st1.counter
    (id, ⟨st1.counter + 1, st1.nodes ++ [(id, .fn op [oid])], st1.edges ++ [(oid, id)]⟩)
  | .binaryOp op l r, st =>
    let (lid, st1) := visit l st
    let (rid, st2) := visit r st1
    let id := make_node_id "op" st2.counter
    (id, ⟨st2.counter + 1, st2.nodes ++ [(id, .op op [lid, rid])],
      st2.edges ++ [(lid, id), (rid, id)]⟩)
  | .concat parts, st =>
    let (pids, st1) := visitList parts st
    let id := make_node_id "op" st1.counter
    (id, ⟨st1.counter + 1, st1.nodes ++ [(id, .op "CONCAT" pids)],
      st1.edges ++ pids.map (fun p => (p, id))⟩)
  | .funcCall name args, st =>
    let (aids, st1) := visitList args st
    let id := make_node_id "fn" st1.counter
    (id, ⟨st1.counter + 1, st1.nodes ++ [(id, .fn name aids)],
      st1.edges ++ aids.map (fun a => (a, id))⟩)

/-- `visit` over an argument list, left to right. -/
def visitList : List ASTNode → GState → List String × GState
  | [], st => ([], st)
  | a :: as, st =>
    let (id, st1) := visit a st
    let (ids, st2) := visitList as st1
    (id :: ids, st2)

end

/-- The exporter's returned graph: root node id, nodes, edges. -/
structure Graph where
  root_node : String
  nodes : List (String × NodeDesc)
  edges : List (String × String)
deriving DecidableEq, Repr

/-- `ast_to_graph(ast, field_name)`: visit the AST, then wrap the expression
root in one `result` node. -/
def ast_to_graph (ast : ASTNode) (field_name : String) : Graph :=
  let (exprRoot, st) := visit ast ⟨0, [], []⟩
  let resultId := "n_result_" ++ field_name
  { root_node := resultId
    nodes := st.nodes ++ [(resultId, .result field_name (to_snake_case field_name) [exprRoot])]
    edges := st.edges ++ [(exprRoot, resultId)] }

/-- Order on node entries used by `sorted(graph["nodes"].items())`: Python
compares the id components first and node ids are pairwise distinct (a fresh
counter value per id), so only the id is compared. -/
def nodeLe (a b : String × NodeDesc) : Prop := strLe a.1 b.1

instance : DecidableRel nodeLe := fun a b => inferInstanceAs (Decidable (strLe a.1 b.1))
instance : IsTotal (String × NodeDesc) nodeLe :=
  ⟨fun a b => IsTotal.total (r := strLe) a.1 b.1⟩
instance : IsTrans (String × NodeDesc) nodeLe :=
  ⟨fun _ _ _ h h2 => IsTrans.trans (r := strLe) _ _ _ h h2⟩

/-- Order on edges used by `sorted([tuple(e) for e in graph["edges"]])`:
lexicographic on the (source, target) pair. -/
def edgeLe (a b : String × String) : Prop :=
  charListLt a.1.data b.1.data = true ∨ (a.1 = b.1 ∧ strLe a.2 b.2)

instance : DecidableRel edgeLe := fun a b =>
  inferInstanceAs (Decidable (charListLt a.1.data b.1.data = true ∨ (a.1 = b.1 ∧ strLe a.2 b.2)))

instance : IsTotal (String × String) edgeLe :=
  ⟨by
    intro a b
    rcases lt_trichotomy a.1 b.1 with h | h | h
    · exact Or.inl (Or.inl ((charListLt_iff _ _).mpr (String.lt_iff_toList_lt.mp h)))
    · rcases IsTotal.total (r := strLe) a.2 b.2 with h2 | h2
      · exact Or.inl (Or.inr ⟨h, h2⟩)
      · exact Or.inr (Or.inr ⟨h.symm, h2⟩)
    · exact Or.inr (Or.inl ((charListLt_iff _ _).mpr (String.lt_iff_toList_lt.mp h)))⟩

instance : IsTrans (String × String) edgeLe :=
  ⟨by
    intro a b c hab hbc
    have lt1 : ∀ x y : String, charListLt x.data y.data = true ↔ x < y := fun x y =>
      (charListLt_iff x.data y.data).trans (Iff.symm String.lt_iff_toList_lt)
    rcases hab with h1 | ⟨e1, l1⟩
    · rcases hbc with h2 | ⟨e2, _⟩
      · exact Or.inl ((lt1 _ _).mpr (lt_trans ((lt1 _ _).mp h1) ((lt1 _ _).mp h2)))
      · exact Or.inl ((lt1 _ _).mpr (e2 ▸ (lt1 _ _).mp h1))
    · rcases hbc with h2 | ⟨e2, l2⟩
      · exact Or.inl ((lt1 _ _).mpr (e1 ▸ (lt1 _ _).mp h2))
      · exact Or.inr ⟨e1.trans e2, IsTrans.trans (r := strLe) _ _ _ l1 l2⟩⟩

instance : IsAntisymm (String × String) edgeLe :=
  ⟨by
    intro a b hab hba
    have lt1 : ∀ x y : String, charListLt x.data y.data = true ↔ x < y := fun x y =>
      (charListLt_iff x.data y.data).trans (Iff.symm String.lt_iff_toList_lt)
    rcases hab with h1 | ⟨e1, l1⟩
    · rcases hba with h2 | ⟨e2, _⟩
      · exact absurd ((lt1 _ _).mp h2) (lt_asymm ((lt1 _ _).mp h1))
      · exact absurd ((lt1 _ _).mp h1) (e2 ▸ lt_irrefl b.1)
    · rcases hba with h2 | ⟨e2, l2⟩
      · exact absurd ((lt1 _ _).mp h2) (e1 ▸ lt_irrefl a.1)
      · exact Prod.ext e1 (IsAntisymm.antisymm (r := strLe) _ _ l1 l2)⟩

/-- The canonical content `compute_template_hash` serializes and digests:
`\x7b"formula": ..., "nodes": sorted(...), "edges": sorted(...)\x7d`.  The
JSON text and its SHA-256 digest are determined by (and, collisions aside,
determine) this structure, so the hash is modelled by the canonical content
itself. -/
structure TemplateCanonical where
  formula : String
  nodes : List (String × NodeDesc)
  edges : List (String × String)
deriving DecidableEq, Repr

/-- `compute_template_hash(graph, formula)`: sort the node entries by id and
the edge pairs lexicographically, and keep the formula text. -/
def compute_template_hash (graph : Graph) (formula : String) : TemplateCanonical :=
  ⟨formula, List.insertionSort nodeLe graph.nodes, List.insertionSort edgeLe graph.edges⟩

/-!
Grading comparison, translated from `src/orchestration/test-orchestrator.py`
(`compare_values` and its inner `normalize`).
-/

/-- The inner `normalize` of `compare_values`: `None` and the strings
`"None"`, `"null"`, `"NULL"` normalize to `""`, every other value to its
`str` form. -/
def normalize_value (val : Value) : String :=
  if val == Value.null then ""
  else
    let s := pyStr val
    if s == "None" || s == "null" || s == "NULL" then "" else s

/-- `compare_values(expected, actual)`: equality after normalization. -/
def compare_values (expected actual : Value) : Bool :=
  normalize_value expected == normalize_value actual

/-!
Formula text analysis for the `IF` arity question.  The generated
`calc_prediction_fail` records the formula it was compiled from in its
docstring; the scanner below reads the argument count of every `IF(` call
in such a formula (after dropping double-quoted literal text, which may
contain commas and parentheses; the scanned formulas contain no escaped
quotes and no identifier whose text contains `IF(`).
-/

/-- Drop the text of double-quoted string literals: the flag tracks whether
the scan is inside a literal. -/
def stripStrings : List Char → Bool → List Char
  | [], _ => []
  | '"' :: cs, inStr => stripStrings cs (!inStr)
  | _ :: cs, true => stripStrings cs true
  | c :: cs, false => c :: stripStrings cs false

/-- Number of commas at parenthesis depth 1, scanning from just after an
opening parenthesis to its matching close. -/
def topCommas : List Char → Nat → Nat → Nat
  | [], _, acc => acc
  | '(' :: cs, d, acc => topCommas cs (d + 1) acc
  | ')' :: cs, d, acc => if d = 1 then acc else topCommas cs (d - 1) acc
  | ',' :: cs, d, acc => topCommas cs d (if d = 1 then acc + 1 else acc)
  | _ :: cs, d, acc => topCommas cs d acc

/-- Argument counts of every `IF(` call in string-stripped formula text, in
order of occurrence (arguments = top-level commas + 1; every `IF` call in
the scanned formulas has at least one argument). -/
def ifArities : List Char → List Nat
  | 'I' :: 'F' :: '(' :: cs => (topCommas cs 1 0 + 1) :: ifArities cs
  | _ :: cs => ifArities cs
  | [] => []

/-- Arity of every `IF` call in a formula string. -/
def formula_if_arities (formula : String) : List Nat :=
  ifArities (stripStrings formula.data false)

/-- The formula recorded in the docstring of the generated
`calc_prediction_fail` (from `erb_calc.py`), verbatim. -/
def prediction_fail_formula : String :=
  "=IF(NOT(\x7b\x7bPredictedAnswer\x7d\x7d = \x7b\x7bIsLanguage\x7d\x7d),\n  \x7b\x7bName\x7d\x7d & \" \" & IF(\x7b\x7bPredictedAnswer\x7d\x7d, \"Is\", \"Isn't\") & \" a Family Feud Language, but \" & \n  IF(\x7b\x7bIsLanguage\x7d\x7d, \"Is\", \"Is Not\") & \" marked as a 'Language Candidate.'\") & IF(\x7b\x7bIsOpenClosedWorldConflicted\x7d\x7d, \" - Open World vs. Closed World Conflict.\")"

/-!
Helper lemmas about the resolver loops and canonical sorting.
-/

theorem length_filter_neg_lt {α} (p : α → Bool) (l : List α) (h : l.filter p ≠ []) :
    (l.filter (fun a => !p a)).length < l.length := by
  induction l with
  | nil => simp at h
  | cons x xs ih =>
    by_cases hx : p x
    · have h1 : (x :: xs).filter (fun a => !p a) = xs.filter (fun a => !p a) := by
        simp [List.filter_cons, hx]
      rw [h1]
      exact Nat.lt_succ_of_le (List.length_filter_le _ _)
    · have h1 : (x :: xs).filter p = xs.filter p := by
        simp [List.filter_cons, hx]
      have h2 : (x :: xs).filter (fun a => !p a) = x :: xs.filter (fun a => !p a) := by
        simp [List.filter_cons, hx]
      rw [h2, List.length_cons, List.length_cons]
      exact Nat.succ_lt_succ (ih (by rw [h1] at h; exact h))

theorem build_dag_levels_go_cycle (fuel : Nat) (fields : List CalcField)
    (assigned : List String) (hne : fields ≠ [])
    (hstuck : fields.filter (field_ready assigned) = []) :
    build_dag_levels_go (fuel + 1) fields assigned = [fields] := by
  have hemp : fields.isEmpty = false := by
    cases fields with
    | nil => exact absurd rfl hne
    | cons x xs => rfl
  simp [build_dag_levels_go, hemp, hstuck]

theorem dag_levels_ok_go_cycle (fuel : Nat) (fields : List CalcField)
    (assigned : List String) (hne : fields ≠ [])
    (hstuck : fields.filter (field_ready assigned) = []) :
    dag_levels_ok_go (fuel + 1) fields assigned = false := by
  have hemp : fields.isEmpty = false := by
    cases fields with
    | nil => exact absurd rfl hne
    | cons x xs => rfl
  simp [dag_levels_ok_go, hemp, hstuck]

theorem build_calc_order_go_cycle (fuel : Nat) (fields : List CalcField)
    (assigned : List String) (hne : fields ≠ [])
    (hstuck : fields.filter (field_ready assigned) = []) :
    build_calc_order_go (fuel + 1) fields assigned = pySorted (fields.map (·.name)) := by
  have hemp : fields.isEmpty = false := by
    cases fields with
    | nil => exact absurd rfl hne
    | cons x xs => rfl
  simp [build_calc_order_go, hemp, hstuck]

theorem build_dag_levels_go_flatten_perm :
    ∀ (fuel : Nat) (fields : List CalcField) (assigned : List String),
      fields.length ≤ fuel →
      (build_dag_levels_go fuel fields assigned).flatten.Perm fields := by
  intro fuel
  induction fuel with
  | zero =>
    intro fields assigned h
    have : fields = [] := List.eq_nil_of_length_eq_zero (Nat.le_zero.mp h)
    subst this
    simp [build_dag_levels_go]
  | succ fuel ih =>
    intro fields assigned h
    cases fields with
    | nil => simp [build_dag_levels_go]
    | cons x xs =>
      by_cases hready : (x :: xs).filter (field_ready assigned) = []
      · rw [build_dag_levels_go_cycle fuel (x :: xs) assigned (by simp) hready]
        simp
      · have hemp : (x :: xs).isEmpty = false := rfl
        have hlt : ((x :: xs).filter (fun f => !field_ready assigned f)).length <
            (x :: xs).length := length_filter_neg_lt _ _ hready
        have hle : ((x :: xs).filter (fun f => !field_ready assigned f)).length ≤ fuel :=
          Nat.le_of_lt_succ (Nat.lt_of_lt_of_le hlt h)
        have hrd : ((x :: xs).filter (field_ready assigned)).isEmpty = false := by
          cases heq : (x :: xs).filter (field_ready assigned) with
          | nil => exact absurd heq hready
          | cons a l => rfl
        rw [build_dag_levels_go]
        simp only [hemp, Bool.false_eq_true, if_false, hrd]
        rw [List.flatten_cons]
        exact ((ih _ _ hle).append_left _).trans (List.filter_append_perm _ _)

theorem build_dag_levels_go_invariant :
    ∀ (fuel : Nat) (fields : List CalcField) (assigned : List String),
      fields.length ≤ fuel →
      dag_levels_ok_go fuel fields assigned = true →
      ∀ k f, f ∈ (build_dag_levels_go fuel fields assigned).getD k [] →
        ∀ d ∈ f.deps, d ∈ assigned ∨
          ∃ j, j < k ∧
            d ∈ ((build_dag_levels_go fuel fields assigned).getD j []).map CalcField.name := by
  intro fuel
  induction fuel with
  | zero =>
    intro fields assigned h _ k f hf
    have : fields = [] := List.eq_nil_of_length_eq_zero (Nat.le_zero.mp h)
    subst this
    simp [build_dag_levels_go, List.getD] at hf
  | succ fuel ih =>
    intro fields assigned h hok k f hf d hd
    cases fields with
    | nil => simp [build_dag_levels_go, List.getD] at hf
    | cons x xs =>
      by_cases hready : (x :: xs).filter (field_ready assigned) = []
      · rw [dag_levels_ok_go_cycle fuel (x :: xs) assigned (by simp) hready] at hok
        cases hok
      · have hemp : (x :: xs).isEmpty = false := rfl
        have hrd : ((x :: xs).filter (field_ready assigned)).isEmpty = false := by
          cases heq : (x :: xs).filter (field_ready assigned) with
          | nil => exact absurd heq hready
          | cons a l => rfl
        have hlt : ((x :: xs).filter (fun f => !field_ready assigned f)).length <
            (x :: xs).length := length_filter_neg_lt _ _ hready
        have hle : ((x :: xs).filter (fun f => !field_ready assigned f)).length ≤ fuel :=
          Nat.le_of_lt_succ (Nat.lt_of_lt_of_le hlt h)
        have hok' : dag_levels_ok_go fuel ((x :: xs).filter (fun f => !field_ready assigned f))
            (assigned ++ ((x :: xs).filter (field_ready assigned)).map (·.name)) = true := by
          rw [dag_levels_ok_go] at hok
          simpa only [hemp, Bool.false_eq_true, if_false, hrd] using hok
        rw [build_dag_levels_go] at hf ⊢
        simp only [hemp, Bool.false_eq_true, if_false, hrd] at hf ⊢
        cases k with
        | zero =>
          rw [List.getD_cons_zero] at hf
          have hr : field_ready assigned f = true := (List.mem_filter.mp hf).2
          have : decide (d ∈ assigned) = true := by
            have := List.all_eq_true.mp hr d hd
            simpa using this
          exact Or.inl (of_decide_eq_true this)
        | succ k =>
          rw [List.getD_cons_succ] at hf
          have := ih _ _ hle hok' k f hf d hd
          rcases this with hmem | ⟨j, hj, hmem⟩
          · rcases List.mem_append.mp hmem with hl | hr
            · exact Or.inl hl
            · exact Or.inr ⟨0, Nat.succ_pos _, by rw [List.getD_cons_zero]; exact hr⟩
          · exact Or.inr ⟨j + 1, Nat.succ_lt_succ hj, by rw [List.getD_cons_succ]; exact hmem⟩

theorem countP_levels_zero {α} [DecidableEq α] (L : List (List α)) (f : α)
    (h : f ∉ L.flatten) : L.countP (fun lvl => decide (f ∈ lvl)) = 0 := by
  induction L with
  | nil => simp
  | cons l rest ih =>
    rw [List.flatten_cons] at h
    have h1 : f ∉ l := fun hc => h (List.mem_append.mpr (Or.inl hc))
    have h2 : f ∉ rest.flatten := fun hc => h (List.mem_append.mpr (Or.inr hc))
    rw [List.countP_cons]
    simp [h1, ih h2]

theorem countP_levels_one {α} [DecidableEq α] (L : List (List α)) (f : α)
    (hmem : f ∈ L.flatten) (hnd : L.flatten.Nodup) :
    L.countP (fun lvl => decide (f ∈ lvl)) = 1 := by
  induction L with
  | nil => simp at hmem
  | cons l rest ih =>
    rw [List.flatten_cons] at hmem hnd
    have hnd' := List.nodup_append.mp hnd
    rw [List.countP_cons]
    rcases List.mem_append.mp hmem with hl | hr
    · have hnotr : f ∉ rest.flatten := fun hc => hnd'.2.2 hl hc
      simp [hl, countP_levels_zero rest f hnotr]
    · have hnotl : f ∉ l := fun hc => hnd'.2.2 hc hr
      simp [hnotl, ih hr hnd'.2.1]

theorem eq_of_perm_of_sorted_nodes :
    ∀ (l₁ l₂ : List (String × NodeDesc)), l₁.Perm l₂ →
      l₁.Pairwise nodeLe → l₂.Pairwise nodeLe → (l₁.map Prod.fst).Nodup → l₁ = l₂ := by
  intro l₁
  induction l₁ with
  | nil =>
    intro l₂ hp _ _ _
    exact (hp.symm.eq_nil).symm
  | cons a t₁ ih =>
    intro l₂ hp hs₁ hs₂ hnd
    cases l₂ with
    | nil => exact absurd hp.eq_nil (by simp)
    | cons b t₂ =>
      have hab : a = b := by
        by_contra hne
        have ha2 : a ∈ t₂ := by
          have : a ∈ b :: t₂ := hp.subset (List.mem_cons_self a t₁)
          rcases List.mem_cons.mp this with h | h
          · exact absurd h hne
          · exact h
        have hb1 : b ∈ t₁ := by
          have : b ∈ a :: t₁ := hp.symm.subset (List.mem_cons_self b t₂)
          rcases List.mem_cons.mp this with h | h
          · exact absurd h.symm hne
          · exact h
        have h1 : nodeLe a b := (List.pairwise_cons.mp hs₁).1 b hb1
        have h2 : nodeLe b a := (List.pairwise_cons.mp hs₂).1 a ha2
        have hkey : a.1 = b.1 := IsAntisymm.antisymm (r := strLe) _ _ h1 h2
        have hmem : a.1 ∈ t₁.map Prod.fst := List.mem_map.mpr ⟨b, hb1, hkey.symm⟩
        have hnd2 : (a.1 :: t₁.map Prod.fst).Nodup := by rw [List.map_cons] at hnd; exact hnd
        exact (List.nodup_cons.mp hnd2).1 hmem
      subst hab
      have ht : t₁.Perm t₂ := hp.cons_inv
      have hnd2 : (a.1 :: t₁.map Prod.fst).Nodup := by rw [List.map_cons] at hnd; exact hnd
      have := ih t₂ ht (List.pairwise_cons.mp hs₁).2 (List.pairwise_cons.mp hs₂).2
        (List.nodup_cons.mp hnd2).2
      rw [this]

/-!
The claims.
-/

/-- C1: boolean predicates follow the identity rule: `calc_has_grammar`
(compiled from `{{HasSyntax}} = TRUE()`) is `true` on a `true` record value
and `false` on `Null`; `calc_predicted_answer` is `true` when its six
positive `AND` arguments are exactly `true` and `can_be_held`/`has_identity`
are `Null` (a `NOT` of `Null` succeeds under the `is not True` rule), and a
`Null` positive argument makes the `AND` false. -/
theorem c1_boolean_identity_rule :
    calc_has_grammar (Value.bool true) = true ∧
    calc_has_grammar Value.null = false ∧
    calc_predicted_answer (Value.bool true) (Value.bool true) (Value.bool true)
      (Value.bool true) (Value.bool true) (Value.bool true) Value.null Value.null = true ∧
    (∀ rp ido hldp rast isor cb hi : Value,
      calc_predicted_answer Value.null rp ido hldp rast isor cb hi = false) := by
  refine ⟨by decide, by decide, by decide, ?_⟩
  intro rp ido hldp rast isor cb hi
  rfl

/-- C2: string concatenation coerces `Null` to the empty string:
`calc_question` produces `"Is Lojban a language?"` for name `"Lojban"`,
`"Is  a language?"` for a `Null` name, and `"Is " + name + " a language?"`
for every string name; the OCL interpreter's `+` with a string operand
turns a `None` operand into `""` before joining. -/
theorem c2_concat_null_coercion :
    calc_question (Value.str "Lojban") = "Is Lojban a language?" ∧
    calc_question Value.null = "Is  a language?" ∧
    (∀ s : String, calc_question (Value.str s) = "Is " ++ s ++ " a language?") ∧
    (∀ s : String,
      apply_binary_op "+" (Value.str s) Value.null = .ok (Value.str s) ∧
      apply_binary_op "+" Value.null (Value.str s) = .ok (Value.str s)) := by
  refine ⟨by decide, by decide, ?_, ?_⟩
  · intro s
    by_cases hs : s = ""
    · subst hs; rfl
    · simp [calc_question, pyBool, pyStr, hs]
  · intro s
    constructor
    · simp [apply_binary_op, pyStr]
    · simp [apply_binary_op, pyStr]

/-- C3: `IF` takes the then branch exactly on a concretely-true condition:
`calc_relationship_to_concept` answers `"IsMirrorOf"` for distance 1,
`"IsDescriptionOf"` for distance 2 and for a `Null` distance; an OCL
if-expression whose condition evaluates to `Null` evaluates its else
branch. -/
theorem c3_if_null_takes_else :
    calc_relationship_to_concept (Value.int 1) = "IsMirrorOf" ∧
    calc_relationship_to_concept (Value.int 2) = "IsDescriptionOf" ∧
    calc_relationship_to_concept Value.null = "IsDescriptionOf" ∧
    (∀ (lookup : String → Value) (c t e : OCLNode),
      eval_node lookup c = .ok Value.null →
      eval_node lookup (.ifExpr c t e) = eval_node lookup e) := by
  refine ⟨by decide, by decide, by decide, ?_⟩
  intro lookup c t e h
  simp [eval_node, h, pyBool]

/-- C3 witness: a concrete if-expression with a `Null` condition (a record
attribute that is absent) takes the else branch. -/
theorem c3_witness :
    eval_node (fun _ => Value.null)
      (.ifExpr (.selfAttr "Distance") (.literalString "IsMirrorOf")
        (.literalString "IsDescriptionOf")) = .ok (Value.str "IsDescriptionOf") := by
  have h := c3_if_null_takes_else.2.2.2 (fun _ => Value.null) (.selfAttr "Distance")
    (.literalString "IsMirrorOf") (.literalString "IsDescriptionOf") rfl
  rw [h]
  rfl

/-- C7: the repository's two `NOT` implementations agree on `true`/`false`
but differ on `Null`: the OCL interpreter's unary `not` maps a `Null`
operand to `Null`, while the generated `erb_calc` idiom `(x is not True)`
maps `Null` to `true` (as `calc_predicted_answer`'s two negated arguments
show), so the conventions are not equivalent. -/
theorem c7_two_not_conventions :
    (∀ (lookup : String → Value) (n : OCLNode) (b : Bool),
      eval_node lookup n = .ok (Value.bool b) →
      eval_node lookup (.unaryExpr "not" n) = .ok (Value.bool (erb_not (Value.bool b)))) ∧
    (∀ (lookup : String → Value) (n : OCLNode),
      eval_node lookup n = .ok Value.null →
      eval_node lookup (.unaryExpr "not" n) = .ok Value.null) ∧
    erb_not Value.null = true ∧
    Value.null ≠ Value.bool (erb_not Value.null) ∧
    (∀ cb hi : Value,
      calc_predicted_answer (Value.bool true) (Value.bool true) (Value.bool true)
        (Value.bool true) (Value.bool true) (Value.bool true) cb hi =
      (erb_not cb && erb_not hi)) := by
  refine ⟨?_, ?_, by decide, by decide, ?_⟩
  · intro lookup n b h
    cases b <;> simp [eval_node, h, pyBool, erb_not, isTrueV]
  · intro lookup n h
    simp [eval_node, h]
  · intro cb hi
    rfl

/-- C7 witness: the OCL `not` of a concretely-`true` node agrees with the
generated idiom, and the `not` of an absent (hence `Null`) attribute is
`Null` — which is not the `true` the generated idiom produces for `Null`. -/
theorem c7_witness :
    eval_node (fun _ => Value.null) (.unaryExpr "not" (.literalBool true)) =
      .ok (Value.bool (erb_not (Value.bool true))) ∧
    eval_node (fun _ => Value.null) (.unaryExpr "not" (.selfAttr "CanBeHeld")) =
      .ok Value.null :=
  ⟨c7_two_not_conventions.1 (fun _ => Value.null) (.literalBool true) true rfl,
   c7_two_not_conventions.2.1 (fun _ => Value.null) (.selfAttr "CanBeHeld") rfl⟩

/-- C10: the orchestrator's grading equality conflates `Null` with the empty
string: `compare_values` is equality after normalizing `None` and the
strings `"None"`, `"null"`, `"NULL"` to `""` and every other value to its
`str` form — so a `Null` expected value passes against an empty-string
actual value although the value domain distinguishes the two. -/
theorem c10_grading_conflates_null_empty :
    (∀ e a : Value, compare_values e a = (normalize_value e == normalize_value a)) ∧
    compare_values Value.null (Value.str "") = true ∧
    compare_values (Value.str "None") (Value.str "") = true ∧
    compare_values (Value.str "null") Value.null = true ∧
    compare_values (Value.str "NULL") (Value.str "") = true ∧
    compare_values (Value.int 7) (Value.str "7") = true ∧
    Value.null ≠ Value.str "" ∧
    (∀ v : Value, compare_values v v = true) := by
  refine ⟨fun e a => rfl, by decide, by decide, by decide, by decide, by decide, by decide, ?_⟩
  intro v
  simp [compare_values]

/-- C4 counterexample: on the two mutually-referencing fields `B` and `A`
(in that dictionary order), `build_dag_levels` puts both into one final
level in their original order `["B", "A"]` — not sorted lexicographically
by field name, as the claim states. -/
theorem c4_counterexample :
    build_dag_levels [⟨"B", ["A"]⟩, ⟨"A", ["B"]⟩] [] =
      [[⟨"B", ["A"]⟩, ⟨"A", ["B"]⟩]] ∧
    ¬ List.Pairwise strLe
      (((build_dag_levels [⟨"B", ["A"]⟩, ⟨"A", ["B"]⟩] []).getD 0 []).map CalcField.name) := by
  constructor
  · decide
  · decide

/-- C4 (amended): when no field is ready while fields remain, both resolvers
terminate without failing: `build_dag_levels` assigns all remaining fields
to one final level in their original (dictionary) order — not sorted — and
raises the non-fatal cycle signal, while `build_calc_order` appends the
remaining field names sorted lexicographically. -/
theorem c4_cycle_degrades_gracefully :
    ∀ (fields : List CalcField) (assigned : List String),
      fields ≠ [] →
      (∀ f ∈ fields, field_ready assigned f = false) →
      build_dag_levels fields assigned = [fields] ∧
      dag_levels_ok fields assigned = false ∧
      build_calc_order fields assigned = pySorted (fields.map (·.name)) := by
  intro fields assigned hne hstuck
  have hfilAll : ∀ l : List CalcField, (∀ f ∈ l, field_ready assigned f = false) →
      l.filter (field_ready assigned) = [] := by
    intro l
    induction l with
    | nil => intro _; rfl
    | cons x xs ih =>
      intro hl
      rw [List.filter_cons]
      simp only [hl x (List.mem_cons_self x xs), Bool.false_eq_true, if_false]
      exact ih (fun f hf => hl f (List.mem_cons_of_mem x hf))
  have hfil : fields.filter (field_ready assigned) = [] := hfilAll fields hstuck
  obtain ⟨x, xs, rfl⟩ : ∃ x xs, fields = x :: xs := by
    cases fields with
    | nil => exact absurd rfl hne
    | cons x xs => exact ⟨x, xs, rfl⟩
  refine ⟨?_, ?_, ?_⟩
  · rw [build_dag_levels]
    exact build_dag_levels_go_cycle _ _ _ hne hfil
  · rw [dag_levels_ok]
    exact dag_levels_ok_go_cycle _ _ _ hne hfil
  · rw [build_calc_order]
    exact build_calc_order_go_cycle _ _ _ hne hfil

/-- C4 witness: the mutually-referencing pair `B`, `A` lands in one final
level (unsorted) with the cycle signal raised, and `build_calc_order`
appends the two names sorted. -/
theorem c4_cycle_witness :
    build_dag_levels [⟨"B", ["A"]⟩, ⟨"A", ["B"]⟩] [] = [[⟨"B", ["A"]⟩, ⟨"A", ["B"]⟩]] ∧
    dag_levels_ok [⟨"B", ["A"]⟩, ⟨"A", ["B"]⟩] [] = false ∧
    build_calc_order [⟨"B", ["A"]⟩, ⟨"A", ["B"]⟩] [] = ["A", "B"] := by
  have h := c4_cycle_degrades_gracefully [⟨"B", ["A"]⟩, ⟨"A", ["B"]⟩] []
    (by decide) (by decide)
  refine ⟨h.1, h.2.1, ?_⟩
  rw [h.2.2]
  decide

/-- C5: leveling invariant.  When `build_dag_levels` completes without the
cycle branch (`dag_levels_ok`), every field at level `k` depends only on
raw fields or fields of strictly earlier levels; the levels flatten to a
permutation of the input fields, and (for distinct fields) each field
appears in exactly one level. -/
theorem c5_leveling_invariant :
    ∀ (fields : List CalcField) (assigned : List String),
      dag_levels_ok fields assigned = true →
      (∀ k f, f ∈ (build_dag_levels fields assigned).getD k [] →
        ∀ d ∈ f.deps, d ∈ assigned ∨
          ∃ j, j < k ∧
            d ∈ ((build_dag_levels fields assigned).getD j []).map CalcField.name) ∧
      (build_dag_levels fields assigned).flatten.Perm fields ∧
      (fields.Nodup →
        ∀ f ∈ fields,
          (build_dag_levels fields assigned).countP (fun lvl => decide (f ∈ lvl)) = 1) := by
  intro fields assigned hok
  refine ⟨build_dag_levels_go_invariant _ _ _ le_rfl hok,
    build_dag_levels_go_flatten_perm _ _ _ le_rfl, ?_⟩
  intro hnd f hf
  have hperm := build_dag_levels_go_flatten_perm fields.length fields assigned le_rfl
  have hmem : f ∈ (build_dag_levels fields assigned).flatten := hperm.symm.subset hf
  have hnd2 : (build_dag_levels fields assigned).flatten.Nodup := hperm.nodup_iff.mpr hnd
  exact countP_levels_one _ f hmem hnd2

/-- C5 witness: a two-level schema (`q` reads raw `name`; `pa` reads `q`)
resolves without the cycle branch, and its levels flatten back to the
fields. -/
theorem c5_witness :
    dag_levels_ok [⟨"q", ["name"]⟩, ⟨"pa", ["q"]⟩] ["name"] = true ∧
    (build_dag_levels [⟨"q", ["name"]⟩, ⟨"pa", ["q"]⟩] ["name"]).flatten.Perm
      [⟨"q", ["name"]⟩, ⟨"pa", ["q"]⟩] :=
  ⟨by decide, (c5_leveling_invariant [⟨"q", ["name"]⟩, ⟨"pa", ["q"]⟩] ["name"] (by decide)).2.1⟩

/-- A value compares `==`-equal to Python's `0` exactly when its numeric
reading is `0` (`False == 0` and `0.0 == 0` hold in Python). -/
theorem pyEq_int_zero_iff (r : Value) : pyEq r (Value.int 0) = true ↔ pyNum r = some 0 := by
  cases r with
  | null => simp [pyEq, pyNum]
  | bool b => cases b <;> decide
  | int n => simp [pyEq, pyNum]
  | float q => simp [pyEq, pyNum]
  | str s => simp [pyEq, pyNum]

/-- The `/` branch of `apply_binary_op`, with the operator dispatch reduced. -/
theorem apply_binary_op_div (left right : Value) :
    apply_binary_op "/" left right =
      match pyNum (if left == Value.null then Value.int 0 else left),
        pyNum (if right == Value.null || pyEq right (Value.int 0) then Value.int 1
          else right) with
      | some x, some y =>
        if y = 0 then .error "ZeroDivisionError" else .ok (Value.float (x / y))
      | _, _ => .error "TypeError" := rfl

/-- C6 counterexample: the division branch is not total over all values —
a string dividend reaches Python's `TypeError` (`'x' / 2` raises), so the
claim's "for all left and right values the division branch is total" fails;
only the division-by-zero error is unreachable. -/
theorem c6_counterexample :
    apply_binary_op "/" (Value.str "x") (Value.int 2) = .error "TypeError" := by
  decide

/-- C6 (amended): `apply_binary_op` substitutes `0` for a `Null` operand of
`+` (in its numeric branch), `-` and `*`, and `1` for a `Null` or zero
divisor; the division branch never raises a division-by-zero error for any
operands, and it is total (returns a quotient) whenever both operands are
numeric or `Null` — non-numeric operands raise `TypeError`, as Python
arithmetic would. -/
theorem c6_null_arithmetic :
    (∀ r : Value, (∀ s, r ≠ Value.str s) →
      apply_binary_op "+" Value.null r = apply_binary_op "+" (Value.int 0) r) ∧
    (∀ l : Value, (∀ s, l ≠ Value.str s) →
      apply_binary_op "+" l Value.null = apply_binary_op "+" l (Value.int 0)) ∧
    (∀ r : Value, apply_binary_op "-" Value.null r = apply_binary_op "-" (Value.int 0) r) ∧
    (∀ l : Value, apply_binary_op "-" l Value.null = apply_binary_op "-" l (Value.int 0)) ∧
    (∀ r : Value, apply_binary_op "*" Value.null r = apply_binary_op "*" (Value.int 0) r) ∧
    (∀ l : Value, apply_binary_op "*" l Value.null = apply_binary_op "*" l (Value.int 0)) ∧
    (∀ l : Value, apply_binary_op "/" l Value.null = apply_binary_op "/" l (Value.int 1)) ∧
    (∀ l r : Value, pyEq r (Value.int 0) = true →
      apply_binary_op "/" l r = apply_binary_op "/" l (Value.int 1)) ∧
    (∀ l r : Value, apply_binary_op "/" l r ≠ .error "ZeroDivisionError") ∧
    (∀ l r : Value, ((pyNum l).isSome ∨ l = Value.null) →
      ((pyNum r).isSome ∨ r = Value.null) →
      ∃ q : ℚ, apply_binary_op "/" l r = .ok (Value.float q)) := by
  have h1 : pyNum (Value.int 1) = some 1 := by simp [pyNum]
  refine ⟨?_, ?_, fun r => rfl, fun l => rfl, fun r => rfl, fun l => rfl, fun l => rfl,
    ?_, ?_, ?_⟩
  · intro r h
    cases r with
    | str s => exact absurd rfl (h s)
    | null => rfl
    | bool b => rfl
    | int n => rfl
    | float q => rfl
  · intro l h
    cases l with
    | str s => exact absurd rfl (h s)
    | null => rfl
    | bool b => rfl
    | int n => rfl
    | float q => rfl
  · intro l r h
    have hcr : (if r == Value.null || pyEq r (Value.int 0) then Value.int 1 else r) =
        Value.int 1 := by simp [h]
    have hcr1 : (if Value.int 1 == Value.null || pyEq (Value.int 1) (Value.int 0) then
        Value.int 1 else Value.int 1) = Value.int 1 := ite_self _
    rw [apply_binary_op_div, apply_binary_op_div, hcr, hcr1]
  · intro l r
    rw [apply_binary_op_div]
    by_cases hc : (r == Value.null || pyEq r (Value.int 0)) = true
    · have hcr : (if r == Value.null || pyEq r (Value.int 0) then Value.int 1 else r) =
          Value.int 1 := by simp [hc]
      rw [hcr, h1]
      cases hlv : pyNum (if l == Value.null then Value.int 0 else l) with
      | none => simp
      | some x => simp
    · have hc' : (r == Value.null || pyEq r (Value.int 0)) = false := by simpa using hc
      have hcr : (if r == Value.null || pyEq r (Value.int 0) then Value.int 1 else r) = r := by
        simp [hc']
      have h2 : pyEq r (Value.int 0) = false := by
        rcases Bool.or_eq_false_iff.mp hc' with ⟨_, h⟩
        exact h
      rw [hcr]
      cases hlv : pyNum (if l == Value.null then Value.int 0 else l) with
      | none =>
        cases hrv : pyNum r <;> simp
      | some x =>
        cases hrv : pyNum r with
        | none => simp
        | some y =>
          have hy : ¬ y = 0 := by
            intro h0
            subst h0
            have := (pyEq_int_zero_iff r).mpr hrv
            rw [h2] at this
            simp at this
          simp [hy]
  · intro l r hl hr
    have hlnum : ∃ x, pyNum (if l == Value.null then Value.int 0 else l) = some x := by
      rcases hl with h | h
      · rcases Option.isSome_iff_exists.mp h with ⟨x, hx⟩
        cases l with
        | null => exact ⟨0, by simp [pyNum]⟩
        | bool b => exact ⟨x, hx⟩
        | int n => exact ⟨x, hx⟩
        | float q => exact ⟨x, hx⟩
        | str s => simp [pyNum] at hx
      · subst h
        exact ⟨0, by simp [pyNum]⟩
    rcases hlnum with ⟨x, hx⟩
    rw [apply_binary_op_div]
    by_cases hc : (r == Value.null || pyEq r (Value.int 0)) = true
    · have hcr : (if r == Value.null || pyEq r (Value.int 0) then Value.int 1 else r) =
          Value.int 1 := by simp [hc]
      refine ⟨x / 1, ?_⟩
      rw [hcr, h1, hx]
      simp
    · have hc' : (r == Value.null || pyEq r (Value.int 0)) = false := by simpa using hc
      have hcr : (if r == Value.null || pyEq r (Value.int 0) then Value.int 1 else r) = r := by
        simp [hc']
      have h2 : pyEq r (Value.int 0) = false := by
        rcases Bool.or_eq_false_iff.mp hc' with ⟨_, h⟩
        exact h
      have hrnum : ∃ y, pyNum r = some y := by
        rcases hr with h | h
        · exact Option.isSome_iff_exists.mp h
        · subst h
          rcases Bool.or_eq_false_iff.mp hc' with ⟨h, _⟩
          simp at h
      rcases hrnum with ⟨y, hy⟩
      have hy0 : ¬ y = 0 := by
        intro h0
        subst h0
        have := (pyEq_int_zero_iff r).mpr hy
        rw [h2] at this
        simp at this
      refine ⟨x / y, ?_⟩
      rw [hcr, hx, hy]
      simp [hy0]

/-- C6 witness: concrete null substitutions and a concrete zero divisor,
through the amended statement. -/
theorem c6_witness :
    apply_binary_op "+" Value.null (Value.int 5) =
      apply_binary_op "+" (Value.int 0) (Value.int 5) ∧
    apply_binary_op "/" (Value.int 3) (Value.int 0) =
      apply_binary_op "/" (Value.int 3) (Value.int 1) ∧
    (∃ q : ℚ, apply_binary_op "/" (Value.int 3) Value.null = .ok (Value.float q)) :=
  ⟨c6_null_arithmetic.1 (Value.int 5) (fun s h => Value.noConfusion h),
   c6_null_arithmetic.2.2.2.2.2.2.2.1 (Value.int 3) (Value.int 0) (by decide),
   c6_null_arithmetic.2.2.2.2.2.2.2.2.2 (Value.int 3) Value.null
     (Or.inl (by decide)) (Or.inr rfl)⟩

/-- C8: template-hash idempotence.  Hashing the same `(formula, AST)` pair
twice gives the same canonical content; the canonicalization (sorting node
entries by id and edge pairs lexicographically) makes the hash independent
of the presentation order of nodes and edges (for the id-unique node lists
the exporter emits); and swapping the operands of the non-commutative `-`
changes the canonical content. -/
theorem c8_template_hash :
    (∀ (ast : ASTNode) (field_name formula : String),
      compute_template_hash (ast_to_graph ast field_name) formula =
        compute_template_hash (ast_to_graph ast field_name) formula) ∧
    (∀ (g1 g2 : Graph) (formula : String),
      g1.nodes.Perm g2.nodes → g1.edges.Perm g2.edges →
      (g1.nodes.map Prod.fst).Nodup →
      compute_template_hash g1 formula = compute_template_hash g2 formula) ∧
    compute_template_hash
        (ast_to_graph (.binaryOp "-" (.fieldRef "A") (.fieldRef "B")) "f") "=A-B" ≠
      compute_template_hash
        (ast_to_graph (.binaryOp "-" (.fieldRef "B") (.fieldRef "A")) "f") "=A-B" := by
  refine ⟨fun ast fn fm => rfl, ?_, ?_⟩
  · intro g1 g2 formula hn he hnd
    have hnodes : List.insertionSort nodeLe g1.nodes = List.insertionSort nodeLe g2.nodes := by
      apply eq_of_perm_of_sorted_nodes
      · exact (List.perm_insertionSort _ _).trans (hn.trans (List.perm_insertionSort _ _).symm)
      · exact List.sorted_insertionSort nodeLe g1.nodes
      · exact List.sorted_insertionSort nodeLe g2.nodes
      · have hmap : ((List.insertionSort nodeLe g1.nodes).map Prod.fst).Perm
            (g1.nodes.map Prod.fst) := (List.perm_insertionSort _ _).map _
        exact hmap.nodup_iff.mpr hnd
    have hedges : List.insertionSort edgeLe g1.edges = List.insertionSort edgeLe g2.edges :=
      List.eq_of_perm_of_sorted
        ((List.perm_insertionSort _ _).trans (he.trans (List.perm_insertionSort _ _).symm))
        (List.sorted_insertionSort edgeLe g1.edges)
        (List.sorted_insertionSort edgeLe g2.edges)
    simp [compute_template_hash, hnodes, hedges]
  · decide

/-- C8 witness: a concretely permuted presentation of the same nodes and
edges (the reversed lists) hashes identically, through the canonicalization
statement. -/
theorem c8_witness :
    compute_template_hash
        (ast_to_graph (.binaryOp "-" (.fieldRef "A") (.fieldRef "B")) "f") "=A-B" =
      compute_template_hash
        ⟨(ast_to_graph (.binaryOp "-" (.fieldRef "A") (.fieldRef "B")) "f").root_node,
         (ast_to_graph (.binaryOp "-" (.fieldRef "A") (.fieldRef "B")) "f").nodes.reverse,
         (ast_to_graph (.binaryOp "-" (.fieldRef "A") (.fieldRef "B")) "f").edges.reverse⟩
        "=A-B" :=
  c8_template_hash.2.1 _ _ "=A-B" (List.reverse_perm _).symm (List.reverse_perm _).symm
    (by decide)

/-- C9 counterexample: the claim says a formula with a non-3-argument `IF`
fails to parse and produces no generated code; but the repository's
generated `calc_prediction_fail` was compiled from a formula whose outer
`IF` and final `IF` have exactly two arguments (arities `[2, 3, 3, 2]`),
and that generated code runs and produces output. -/
theorem c9_counterexample :
    formula_if_arities prediction_fail_formula = [2, 3, 3, 2] ∧
    2 ∈ formula_if_arities prediction_fail_formula ∧
    calc_prediction_fail (Value.bool true) (Value.bool false) (Value.str "Lojban")
      (Value.bool false) =
      "Lojban Is a Family Feud Language, but Is Not marked as a 'Language Candidate.'" :=
  ⟨by decide, by decide, by decide⟩

/-- C9 (amended): the parser accepts `IF` with two arguments as well as
three, compiling the missing else branch to `None`: the formula recorded
with `calc_prediction_fail` contains two-argument `IF` calls, and when both
two-argument conditions are false (`PredictedAnswer == IsLanguage` and no
open/closed-world conflict) the generated function returns the empty
string — the `None` of each elided else branch coerced to `""` — instead of
failing. -/
theorem c9_if_arity :
    formula_if_arities prediction_fail_formula = [2, 3, 3, 2] ∧
    (∀ pa il nm co : Value, pyEq pa il = true → pyBool co = false →
      calc_prediction_fail pa il nm co = "") := by
  refine ⟨by decide, ?_⟩
  intro pa il nm co h hco
  simp [calc_prediction_fail, h, hco, coalesceStr, pyStr]

/-- C9 witness: matching prediction and no conflict yield the empty string,
through the amended statement. -/
theorem c9_witness :
    calc_prediction_fail (Value.bool true) (Value.bool true) (Value.str "Lojban")
      (Value.bool false) = "" :=
  c9_if_arity.2 (Value.bool true) (Value.bool true) (Value.str "Lojban") (Value.bool false)
    (by decide) (by decide)
